import Mathlib

/-!
# phoenix_chat_demo: conversation session, typing indicator and typing debouncer

A shallow embedding of `src/index.js`.  The module-level variables of the script
(`typingTimer`, `isTyping`, `activeChannel`, `channelMembers`, `presences`), the text
shown by the widgets of `src/interface.js` and the observable effects on the
environment (channel pushes, pending timers, channel joins, process exit) are the
fields of one `State`; every callback of the script is a function on that state.

JavaScript strings are Lean strings handled through their character lists,
JavaScript objects used as dictionaries are insertion-ordered association lists
of their own properties, a read of the directory `channelMembers` also looks along
the prototype chain of the plain object, and a callback that throws returns the state reached at the throw together with
the error.  Calls of `screen.render()` repaint the terminal and change nothing that
the state records, so they have no counterpart here.  Time is a clock in
milliseconds that the event loop advances; a timer fires when the clock reaches
its due time.

The file has two parts: the definitions, then the lemmas and the theorems on the
claims `C1` to `C10` of the specification.
-/

set_option linter.unusedVariables false

namespace PhoenixChat

/-! ## JavaScript objects used as dictionaries -/

/-- A JavaScript object used as a dictionary: its own string-keyed properties in
insertion order.  What a read finds beyond the own properties, on the prototype chain,
is the matter of `readMember`. -/
abbrev JsObject (α : Type) := List (String × α)

namespace JsObject

/-- Lookup of `k` among the own properties of `o`: `none` when `o` has no own property
`k`.  It is the read `o[k]` for every key that `Object.keys(o)` lists. -/
def get {α : Type} (o : JsObject α) (k : String) : Option α :=
  match o with
  | [] => none
  | (k0, v) :: rest => if k0 = k then some v else get rest k

/-- Property write `o[k] = v`: an existing key keeps its position, a new key goes last.
On the directory `channelMembers` the key `__proto__` is special: the write installs `v`
as the prototype of the object, and the entry kept under that key stands for it. -/
def set {α : Type} (o : JsObject α) (k : String) (v : α) : JsObject α :=
  match o with
  | [] => [(k, v)]
  | (k0, v0) :: rest => if k0 = k then (k0, v) :: rest else (k0, v0) :: set rest k v

/-- Value of a string of decimal digits. -/
def digitsValue (cs : List Char) : Nat :=
  cs.foldl (fun n c => 10 * n + (c.toNat - 48)) 0

/-- ECMAScript array index: the canonical decimal form of an integer below `2^32 - 1`. -/
def isArrayIndex (k : String) : Bool :=
  match k.data with
  | [] => false
  | [c] => c.isDigit
  | c :: cs => c.isDigit && c != '0' && cs.all Char.isDigit
      && decide (digitsValue (c :: cs) < 2 ^ 32 - 1)

/-- Numeric value of an array-index key. -/
def indexValue (k : String) : Nat := digitsValue k.data

/-- `Object.keys(o)`: the array-index keys in ascending numeric order, then the
other keys in insertion order. -/
def keys {α : Type} (o : JsObject α) : List String :=
  let ks := o.map Prod.fst
  (ks.filter isArrayIndex).insertionSort (fun a b => indexValue a ≤ indexValue b)
    ++ ks.filter (fun k => !isArrayIndex k)

end JsObject

/-! ## JavaScript string operations used by the script -/

/-- `s.split(sep)` for a one-character separator, on character lists. -/
def splitChars (sep : Char) : List Char → List (List Char)
  | [] => [[]]
  | c :: cs =>
    if c = sep then [] :: splitChars sep cs
    else
      match splitChars sep cs with
      | [] => [[c]]
      | w :: ws => (c :: w) :: ws

/-- `s.split(' ')`. -/
def splitSpace (s : String) : List String :=
  (splitChars ' ' s.data).map String.mk

/-- `s.startsWith('/')`. -/
def startsWithSlash (s : String) : Bool :=
  match s.data with
  | c :: _ => c == '/'
  | [] => false

/-- `s.substring(1)`. -/
def substring1 (s : String) : String := String.mk s.data.tail

/-- `xs.join(', ')`. -/
def joinComma (xs : List String) : String := String.intercalate ", " xs

/-- How a template literal renders a value: `undefined` as the text `undefined`. -/
def templateText (x : Option String) : String :=
  match x with
  | some text => text
  | none => "undefined"

/-- How `Array.prototype.join` renders an element: `undefined` as the empty string. -/
def joinText (x : Option String) : String :=
  match x with
  | some text => text
  | none => ""

/-! ## Data carried by channel events -/

/-- One connected session of a participant; `typing` is the flag the script reads,
`phx_ref` identifies the session. -/
structure Meta where
  phx_ref : String
  typing : Bool
deriving DecidableEq, Repr

/-- Presence entry of one participant. -/
structure Presence where
  metas : List Meta
deriving DecidableEq, Repr

/-- Presence snapshot: participant id to presence entry. -/
abbrev Snapshot := JsObject Presence

/-- Payload of a `presence_diff` event. -/
structure PresenceDiff where
  joins : Snapshot
  leaves : Snapshot
deriving DecidableEq, Repr

/-- The `attributes` of an included member; `username` is the display name. -/
structure MemberAttributes where
  username : String
deriving DecidableEq, Repr

/-- Entry of `channelInfo.included`. -/
structure Member where
  id : String
  attributes : MemberAttributes
deriving DecidableEq, Repr

/-- Reply data of a successful conversation join. -/
structure ChannelInfo where
  included : List Member
deriving DecidableEq, Repr

/-- The `attributes` of a message thread. -/
structure ConversationAttributes where
  title : String
deriving DecidableEq, Repr

/-- Message thread as returned by the API. -/
structure Conversation where
  id : String
  attributes : ConversationAttributes
deriving DecidableEq, Repr

/-- Entry of `message_participants` in a thread-creation request. -/
structure Participant where
  type : String
  id : String
deriving DecidableEq, Repr

/-- The `data` member of an outbound payload, one constructor per shape the script builds:
`messages` with `attributes.body`, `typing` with `attributes.value`, and
`message-threads` with `attributes.message_participants`. -/
inductive Data where
  | messages (body : String)
  | typing (value : Bool)
  | messageThreads (message_participants : List Participant)
deriving DecidableEq, Repr

/-- The `type` member of a payload. -/
def Data.type : Data → String
  | .messages _ => "messages"
  | .typing _ => "typing"
  | .messageThreads _ => "message-threads"

/-- One `channel.push(event, payload)`, with the topic of the channel and the clock
reading at the call. -/
structure Push where
  time : Nat
  topic : String
  event : String
  data : Data
deriving DecidableEq, Repr

/-- Inbound `messages:new` event; `timestamp` is the time of day the script derives
from `inserted_at`. -/
structure NewMessage where
  userId : String
  timestamp : String
  body : String
deriving DecidableEq, Repr

/-- Pending timer of the event loop. -/
structure Timer where
  id : Nat
  due : Nat
deriving DecidableEq, Repr

/-- Colour styling the script gives a transcript line: none, or bold on a red, green or
white background. -/
inductive Style where
  | plain
  | bgRed
  | bgGreen
  | bgWhite
deriving DecidableEq, Repr

/-- Line of the transcript. -/
structure Line where
  style : Style
  text : String
deriving DecidableEq, Repr

/-- Error thrown by a callback. -/
inductive JsError where
  | typeError (what : String)
deriving DecidableEq, Repr

/-! ## Program state -/

/-- Module variables of `index.js`, widget contents and the observable environment. -/
structure State where
  typingTimer : Option Nat
  isTyping : Bool
  activeChannel : Option String
  channelMembers : JsObject MemberAttributes
  presences : Snapshot
  inputBar : String
  topicBar : List String
  typingBar : String
  messageView : List Line
  clock : Nat
  timers : List Timer
  nextTimerId : Nat
  pushes : List Push
  joins : List String
  exited : Option Nat
deriving DecidableEq, Repr

/-- State once the top level of the script has run with both arguments given: the
connection banners are in the transcript, the join of the index channel has been
requested, no channel is active, the directory and the presences are empty and the
debouncer is idle. -/
def startState (url : String) : State where
  typingTimer := none
  isTyping := false
  activeChannel := none
  channelMembers := []
  presences := []
  inputBar := ""
  topicBar := ["", ""]
  typingBar := ""
  messageView :=
    [{ style := .bgWhite, text := "Connecting to " ++ url },
     { style := .bgGreen, text := "Connection established" },
     { style := .plain, text := "" }]
  clock := 0
  timers := []
  nextTimerId := 0
  pushes := []
  joins := ["message_threads:index"]
  exited := none

/-- Result of running a callback: the state reached and the error thrown, if any. -/
structure Outcome where
  state : State
  thrown : Option JsError
deriving DecidableEq, Repr

/-- Topic of the index channel. -/
def indexTopic : String := "message_threads:index"

/-- Topic of a conversation channel. -/
def topicOf (conversation : Conversation) : String :=
  "message_threads:" ++ conversation.id

/-! ## Typing indicator -/

/-- The filter of `updateTypingStatus`: ids of `Object.keys(presences)` whose entry
has some meta with `typing` set. -/
def typingUserIds (presences : Snapshot) : List String :=
  (JsObject.keys presences).filter (fun presenceKey =>
    match JsObject.get presences presenceKey with
    | some presence => presence.metas.any (fun m => m.typing)
    | none => false)

/-- The string-keyed properties of `Object.prototype`, which every plain object inherits. -/
def objectPrototypeNames : List String :=
  ["constructor", "__defineGetter__", "__defineSetter__", "hasOwnProperty",
   "__lookupGetter__", "__lookupSetter__", "isPrototypeOf", "propertyIsEnumerable",
   "toString", "valueOf", "__proto__", "toLocaleString"]

/-- The names `channelMembers` inherits: those of `Object.prototype`, and `username` once
the attributes of a member with id `__proto__` have become its prototype. -/
def inheritsName (channelMembers : JsObject MemberAttributes) (id : String) : Bool :=
  objectPrototypeNames.contains id ||
    ((JsObject.get channelMembers "__proto__").isSome && id == "username")

/-- What the read `channelMembers[id]` finds: the attributes stored for a member, a value
inherited through the prototype chain (a built-in function or object, or a string), or
`undefined`. -/
inductive MemberRead where
  | member (attrs : MemberAttributes)
  | inherited
  | undefined
deriving DecidableEq, Repr

/-- The read `channelMembers[id]` on the plain object `channelMembers`: the own entry
first, then the prototype chain. -/
def readMember (channelMembers : JsObject MemberAttributes) (id : String) : MemberRead :=
  match JsObject.get channelMembers id with
  | some attrs => .member attrs
  | none => if inheritsName channelMembers id then .inherited else .undefined

/-- The read `channelMembers[id].username`: the display name of a member, `undefined`
(here `none`) on an inherited value, and a `TypeError` when `channelMembers[id]` is
`undefined`. -/
def readUsername (channelMembers : JsObject MemberAttributes) (id : String) :
    Except JsError (Option String) :=
  match readMember channelMembers id with
  | .member attrs => .ok (some attrs.username)
  | .inherited => .ok none
  | .undefined => .error (.typeError "Cannot read property username of undefined")

/-- The map of `updateTypingStatus`: `channelMembers[typingId].username` for each id,
stopping with a `TypeError` at the first id for which `channelMembers[typingId]` is
`undefined`. -/
def typingUsernames (channelMembers : JsObject MemberAttributes) :
    List String → Except JsError (List (Option String))
  | [] => .ok []
  | typingId :: rest =>
    match readUsername channelMembers typingId with
    | .error e => .error e
    | .ok name =>
      match typingUsernames channelMembers rest with
      | .error e => .error e
      | .ok names => .ok (name :: names)

/-- The function `updateTypingStatus(presences)`. -/
def updateTypingStatus (presences : Snapshot) (s : State) : Outcome :=
  let ids := typingUserIds presences
  if ids.length > 0 then
    match typingUsernames s.channelMembers ids with
    | .error e => { state := s, thrown := some e }
    | .ok names =>
      { state := { s with typingBar := joinComma (names.map joinText) ++ " is typing.." },
        thrown := none }
  else
    { state := { s with typingBar := "" }, thrown := none }

/-! ## Outbound pushes -/

/-- Continue with `k` when the callback has not thrown. -/
def Outcome.andThen (o : Outcome) (k : State → Outcome) : Outcome :=
  match o.thrown with
  | some _ => o
  | none => k o.state

/-- A callback step that cannot throw. -/
def done (s : State) : Outcome := { state := s, thrown := none }

/-- The call `activeChannel.push(event, payload)`: a `TypeError` while `activeChannel`
is `null`, otherwise one push on the topic of the active channel. -/
def pushActive (event : String) (data : Data) (s : State) : Outcome :=
  match s.activeChannel with
  | none => { state := s, thrown := some (.typeError "Cannot read property push of null") }
  | some topic =>
    done { s with pushes := s.pushes ++ [{ time := s.clock, topic := topic, event := event, data := data }] }

/-- The call `message_threads.push(event, payload)` on the index channel. -/
def pushIndex (event : String) (data : Data) (s : State) : Outcome :=
  done { s with pushes := s.pushes ++ [{ time := s.clock, topic := indexTopic, event := event, data := data }] }

/-! ## Commands and message submission -/

/-- The function `onCommand(input)`. -/
def onCommand (input : String) (s : State) : Outcome :=
  match splitSpace input with
  | [] => done s
  | command :: args =>
    if command = "quit" then
      done { s with exited := some 1 }
    else if command = "new" then
      let participants : List Participant :=
        args.map (fun participant => { type := "message-participants", id := participant })
      pushIndex "message_threads:create" (.messageThreads participants) s
    else
      done s

/-- The `submit` handler of the input bar. -/
def onSubmit (text : String) (s : State) : Outcome :=
  let s1 := { s with inputBar := "" }
  if startsWithSlash text then
    onCommand (substring1 text) s1
  else
    pushActive "messages:create" (.messages text) s1

/-! ## Typing debouncer -/

/-- The call `clearTimeout(handle)`: the timer with that handle stops being pending;
`null` and stale handles change nothing. -/
def clearTimeout (handle : Option Nat) (s : State) : State :=
  match handle with
  | none => s
  | some id => { s with timers := s.timers.filter (fun t => t.id != id) }

/-- The call `typingTimer = setTimeout(callback, delay)`: one more pending timer,
due `delay` after the current clock reading. -/
def setTypingTimeout (delay : Nat) (s : State) : State :=
  { s with
    timers := s.timers ++ [{ id := s.nextTimerId, due := s.clock + delay }]
    typingTimer := some s.nextTimerId
    nextTimerId := s.nextTimerId + 1 }

/-- The `keypress` handler of the input bar. -/
def onKeypress (s : State) : Outcome :=
  let started : Outcome :=
    if !s.isTyping then
      pushActive "messages:typing" (.typing true) { s with isTyping := true }
    else
      done s
  started.andThen (fun s1 => done (setTypingTimeout 2000 (clearTimeout s1.typingTimer s1)))

/-- The callback given to `setTimeout` by the `keypress` handler. -/
def typingTimeout (s : State) : Outcome :=
  pushActive "messages:typing" (.typing false) { s with isTyping := false }

/-- The event loop runs the callback of pending timer `t`: the timer stops being
pending and the clock reads at least its due time. -/
def fireTimer (t : Timer) (s : State) : Outcome :=
  typingTimeout { s with timers := s.timers.filter (fun u => u.id != t.id), clock := max s.clock t.due }

/-! ## Joining conversations -/

/-- The call `box.setLine(i, text)` on the lines of a box. -/
def setLine (i : Nat) (text : String) (lines : List String) : List String :=
  (lines ++ List.replicate (i + 1 - lines.length) "").set i text

/-- The function `join(conversation)`: the handlers of the channel are registered and
`channel.join()` is called; replies and events arrive later as separate events. -/
def join (conversation : Conversation) (s : State) : State :=
  { s with joins := s.joins ++ [topicOf conversation] }

/-- The function `joinConversations(response)`. -/
def joinConversations (response : List Conversation) (s : State) : State :=
  response.foldl (fun st conversation => join conversation st) s

/-- The `ok` callback of `channel.join()` in `join`. -/
def onJoinOk (conversation : Conversation) (channelInfo : ChannelInfo) (s : State) : State :=
  let conversationMembers := joinComma (channelInfo.included.map (fun m => m.attributes.username))
  { s with
    activeChannel := some (topicOf conversation)
    channelMembers :=
      channelInfo.included.foldl (fun o m => JsObject.set o m.id m.attributes) s.channelMembers
    topicBar :=
      setLine 1 ("Title: " ++ conversation.attributes.title)
        (setLine 0 ("In a conversation with: " ++ conversationMembers) s.topicBar) }

/-- The `error` callback of `channel.join()` in `join`. -/
def onJoinError (s : State) : State :=
  { s with messageView := s.messageView ++ [{ style := .bgRed, text := "Failed to join conversation" }] }

/-- Outcome of a join as the channel library reports it. -/
inductive JoinReply where
  | ok (channelInfo : ChannelInfo)
  | error
  | timeout
deriving DecidableEq, Repr

/-- Dispatch of a reply to `channel.join()` in `join`: callbacks are registered for
`ok` and `error` only, so a `timeout` reply runs no code of the script. -/
def onJoinReply (conversation : Conversation) (reply : JoinReply) (s : State) : State :=
  match reply with
  | .ok channelInfo => onJoinOk conversation channelInfo s
  | .error => onJoinError s
  | .timeout => s

/-- Outcome of the join of the index channel. -/
inductive IndexReply where
  | ok (response : List Conversation)
  | error
  | timeout
deriving DecidableEq, Repr

/-- Dispatch of a reply to `message_threads.join()`: callbacks are registered for `ok`,
`error` and `timeout`. -/
def onIndexJoinReply (reply : IndexReply) (s : State) : State :=
  match reply with
  | .ok response => joinConversations response s
  | .error =>
    { s with messageView := s.messageView ++
        [{ style := .bgRed, text := "Failed to join connection management channel" }] }
  | .timeout =>
    { s with messageView := s.messageView ++ [{ style := .bgRed, text := "Connection timeout" }] }

/-! ## Inbound channel events -/

/-- The merge primitives `Presence.syncState` and `Presence.syncDiff` of the channel
library, which the script calls and does not define. -/
structure PresenceLib where
  syncState : Snapshot → Snapshot → Snapshot
  syncDiff : Snapshot → PresenceDiff → Snapshot

/-- The `presence_state` handler registered by `join(conversation)`. -/
def onPresenceState (lib : PresenceLib) (conversation : Conversation) (state : Snapshot)
    (s : State) : Outcome :=
  let s1 := { s with presences := lib.syncState s.presences state }
  updateTypingStatus s1.presences s1

/-- The `presence_diff` handler registered by `join(conversation)`. -/
def onPresenceDiff (lib : PresenceLib) (conversation : Conversation) (diff : PresenceDiff)
    (s : State) : Outcome :=
  let s1 := { s with presences := lib.syncDiff s.presences diff }
  updateTypingStatus s1.presences s1

/-- The `messages:new` handler registered by `join(conversation)`. -/
def onMessagesNew (conversation : Conversation) (msg : NewMessage) (s : State) : Outcome :=
  match readUsername s.channelMembers msg.userId with
  | .error e => { state := s, thrown := some e }
  | .ok username =>
    done { s with messageView := s.messageView ++
      [{ style := .plain,
         text := msg.timestamp ++ " \x7bbold\x7d<" ++ templateText username ++ ">\x7b/bold\x7d "
           ++ msg.body }] }

/-! ## Presence merge of the channel library -/

/-- Modelled from the spec: `Presence.syncState` of the phoenix-channels library, whose
source is not part of this repository.  A full-state event replaces the snapshot with
the contents of the event. -/
def specSyncState (current state : Snapshot) : Snapshot := state

/-- Removal of a key from an object. -/
def JsObject.delete {α : Type} (o : JsObject α) (k : String) : JsObject α :=
  o.filter (fun kv => kv.1 != k)

/-- Modelled from the spec: the leaves half of `Presence.syncDiff`.  For each id of the
leaves map the listed metas are removed from the meta list of that participant, and a
participant left without metas is removed. -/
def specApplyLeaves (current leaves : Snapshot) : Snapshot :=
  leaves.foldl (fun cur kv =>
    match JsObject.get cur kv.1 with
    | none => cur
    | some presence =>
      let metas := presence.metas.filter (fun m => !kv.2.metas.contains m)
      if metas.isEmpty then JsObject.delete cur kv.1 else JsObject.set cur kv.1 { metas := metas })
    current

/-- Modelled from the spec: the joins half of `Presence.syncDiff`.  For each id of the
joins map the listed metas are appended to the meta list of that participant, which is
created when absent. -/
def specApplyJoins (current joins : Snapshot) : Snapshot :=
  joins.foldl (fun cur kv =>
    match JsObject.get cur kv.1 with
    | none => JsObject.set cur kv.1 kv.2
    | some presence => JsObject.set cur kv.1 { metas := presence.metas ++ kv.2.metas })
    current

/-- Modelled from the spec: `Presence.syncDiff` of the phoenix-channels library, whose
source is not part of this repository.  Leaves are removed first, joins are applied
after. -/
def specSyncDiff (current : Snapshot) (diff : PresenceDiff) : Snapshot :=
  specApplyJoins (specApplyLeaves current diff.leaves) diff.joins

/-- Modelled from the spec: the presence merge primitives as section 4.1 describes them. -/
def specPresence : PresenceLib where
  syncState := specSyncState
  syncDiff := specSyncDiff

/-! ## Event loop -/

/-- Events the environment delivers to the script. -/
inductive Event where
  | keypress
  | submit (text : String)
  | timerExpiry
  | joinReply (conversation : Conversation) (reply : JoinReply)
  | indexJoinReply (reply : IndexReply)
  | createOk (response : Conversation)
  | presenceState (conversation : Conversation) (state : Snapshot)
  | presenceDiff (conversation : Conversation) (diff : PresenceDiff)
  | messagesNew (conversation : Conversation) (msg : NewMessage)
deriving DecidableEq, Repr

/-- Events of the local user and of the inactivity timer. -/
def Event.isInput : Event → Bool
  | .keypress => true
  | .submit _ => true
  | .timerExpiry => true
  | _ => false

/-- Successful reply to the join of a conversation. -/
def Event.isJoinOk : Event → Bool
  | .joinReply _ (.ok _) => true
  | _ => false

/-- Pending timers in the order the event loop runs them: by due time, timers due
together in the order they were set. -/
def timerQueue (timers : List Timer) : List Timer :=
  timers.insertionSort (fun a b => a.due ≤ b.due)

/-- The callback an event runs.  A timer expiry runs the callback of the first timer of
the queue and is nothing when no timer is pending. -/
def handle (lib : PresenceLib) (e : Event) (s : State) : Outcome :=
  match e with
  | .keypress => onKeypress s
  | .submit text => onSubmit text s
  | .timerExpiry =>
    match timerQueue s.timers with
    | [] => done s
    | t :: _ => fireTimer t s
  | .joinReply conversation reply => done (onJoinReply conversation reply s)
  | .indexJoinReply reply => done (onIndexJoinReply reply s)
  | .createOk response => done (join response s)
  | .presenceState conversation state => onPresenceState lib conversation state s
  | .presenceDiff conversation diff => onPresenceDiff lib conversation diff s
  | .messagesNew conversation msg => onMessagesNew conversation msg s

/-- An error that escapes a callback is uncaught and ends the process with status 1. -/
def settle (o : Outcome) : State :=
  match o.thrown with
  | none => o.state
  | some _ => { o.state with exited := some 1 }

/-- One turn of the event loop; nothing runs once the process has exited. -/
def step (lib : PresenceLib) (s : State) (e : Event) : State :=
  if s.exited.isSome then s else settle (handle lib e s)

/-- The events of a list, delivered in order. -/
def run (lib : PresenceLib) (es : List Event) (s : State) : State :=
  es.foldl (step lib) s

/-- Time passes until the clock reads `target`: the timers due by then fire in queue
order, each at its due time. -/
def advanceTo (target : Nat) (s : State) : State :=
  let fired :=
    (timerQueue (s.timers.filter (fun t => t.due ≤ target))).foldl
      (fun st t => if st.exited.isSome then st else settle (fireTimer t st)) s
  { fired with clock := max fired.clock target }

/-- A keypress at time `t`. -/
def keypressAt (lib : PresenceLib) (s : State) (t : Nat) : State :=
  step lib (advanceTo t s) .keypress

/-- Keypresses at the times of a list, in order. -/
def keypressesAt (lib : PresenceLib) (ts : List Nat) (s : State) : State :=
  ts.foldl (keypressAt lib) s

/-- A push that signals typing started. -/
def isStart (p : Push) : Bool :=
  p.event == "messages:typing" && p.data == .typing true

/-- A push that signals typing stopped. -/
def isStop (p : Push) : Bool :=
  p.event == "messages:typing" && p.data == .typing false

/-- In a log of pushes, a typing-started signal has been sent and no typing-stopped
signal has been sent after it. -/
def TypingOutstanding (log : List Push) : Prop :=
  ∃ pre p post, log = pre ++ p :: post ∧ isStart p = true ∧ ∀ q ∈ post, isStop q = false

/-- The display name the directory gives for an id. -/
def DisplayName (channelMembers : JsObject MemberAttributes) (id name : String) : Prop :=
  ∃ attrs, JsObject.get channelMembers id = some attrs ∧ attrs.username = name

/-- Some meta of the participant has `typing` set. -/
def HasTypingMeta (presences : Snapshot) (id : String) : Prop :=
  ∃ presence, JsObject.get presences id = some presence ∧ ∃ m ∈ presence.metas, m.typing = true

/-! ## Sample data -/

/-- A conversation with id `c1`. -/
def demoConversation : Conversation := { id := "c1", attributes := { title := "first" } }

/-- A second conversation, with id `c2`. -/
def otherConversation : Conversation := { id := "c2", attributes := { title := "second" } }

/-- A join reply that includes three members. -/
def demoInfo : ChannelInfo :=
  { included :=
      [{ id := "u1", attributes := { username := "alice" } },
       { id := "u2", attributes := { username := "bob" } },
       { id := "u3", attributes := { username := "carol" } }] }

/-- The start state after the join of `demoConversation` has succeeded. -/
def demoState : State := onJoinOk demoConversation demoInfo (startState "ws://localhost:4000/socket")

/-- A snapshot in which `u1` has an idle and a typing meta, `u2` is idle and `u3` is typing. -/
def demoSnapshot : Snapshot :=
  [("u1", { metas := [{ phx_ref := "r1", typing := false }, { phx_ref := "r2", typing := true }] }),
   ("u2", { metas := [{ phx_ref := "r3", typing := false }] }),
   ("u3", { metas := [{ phx_ref := "r4", typing := true }] })]

/-- The line `/new id1 id2 ...`: the slash, the name `new`, and each id preceded by
exactly one space. -/
def newCommandLine (ids : List String) : String :=
  String.mk (('/' :: "new".data) ++ (ids.map (fun id => ' ' :: id.data)).flatten)

/-- The participant reference built for one argument of `new`. -/
def participantRef (id : String) : Participant := { type := "message-participants", id := id }

/-- Invariant of the debouncer while a channel is active: any pending timer is the single
one whose handle is in `typingTimer`, and `isTyping` tells whether a typing-started signal
is outstanding. -/
def DebouncerInv (s : State) : Prop :=
  s.activeChannel.isSome = true ∧
  (s.timers = [] ∨ ∃ t, s.timers = [t] ∧ s.typingTimer = some t.id) ∧
  (s.isTyping = true ↔ TypingOutstanding s.pushes)

/-- The debouncer right after a keypress at time `t`: typing, with the single timer due
two seconds later. -/
def ArmedAt (s : State) (topic : String) (t : Nat) : Prop :=
  s.isTyping = true ∧
  (∃ id, s.timers = [{ id := id, due := t + 2000 }] ∧ s.typingTimer = some id) ∧
  s.activeChannel = some topic ∧ s.exited = none ∧ s.clock = t

/-! ## Lemmas on objects and on the typing indicator -/


theorem JsObject.get_isSome_iff {α : Type} (o : JsObject α) (k : String) :
    (JsObject.get o k).isSome = true ↔ k ∈ o.map Prod.fst := by
  induction o with
  | nil => simp [JsObject.get]
  | cons kv rest ih =>
    obtain ⟨k0, v⟩ := kv
    by_cases hk : k0 = k
    · simp [JsObject.get, hk]
    · have hk2 : ¬ k = k0 := fun h => hk h.symm
      simp [JsObject.get, hk, hk2, ih]

theorem JsObject.mem_keys {α : Type} (o : JsObject α) (k : String) :
    k ∈ JsObject.keys o ↔ k ∈ o.map Prod.fst := by
  unfold JsObject.keys
  simp only [List.mem_append, (List.perm_insertionSort _ _).mem_iff, List.mem_filter]
  by_cases hk : isArrayIndex k <;> simp [hk]

theorem readUsername_of_entry (m : JsObject MemberAttributes) (id : String)
    (attrs : MemberAttributes) (h : JsObject.get m id = some attrs) :
    readUsername m id = .ok (some attrs.username) := by
  simp [readUsername, readMember, h]

theorem readUsername_error_iff (m : JsObject MemberAttributes) (id : String) :
    (∃ e, readUsername m id = .error e) ↔ readMember m id = .undefined := by
  unfold readUsername
  cases readMember m id <;> simp

theorem typingUsernames_ok (m : JsObject MemberAttributes) (ids : List String)
    (h : ∀ id ∈ ids, (JsObject.get m id).isSome = true) :
    ∃ names : List String,
      typingUsernames m ids = .ok (names.map some) ∧ List.Forall₂ (DisplayName m) ids names := by
  induction ids with
  | nil => exact ⟨[], rfl, List.Forall₂.nil⟩
  | cons id rest ih =>
    obtain ⟨names, hn, hf⟩ := ih (fun i hi => h i (List.mem_cons_of_mem _ hi))
    have hid := h id (List.mem_cons_self _ _)
    cases hg : JsObject.get m id with
    | none => simp [hg] at hid
    | some attrs =>
      refine ⟨attrs.username :: names, ?_, List.Forall₂.cons ⟨attrs, hg, rfl⟩ hf⟩
      simp [typingUsernames, readUsername_of_entry m id attrs hg, hn]

theorem typingUsernames_error (m : JsObject MemberAttributes) (ids : List String)
    (h : ∃ id ∈ ids, readMember m id = .undefined) :
    ∃ e, typingUsernames m ids = .error e := by
  induction ids with
  | nil => simp at h
  | cons id rest ih =>
    cases hr : readUsername m id with
    | error e => exact ⟨e, by unfold typingUsernames; rw [hr]⟩
    | ok name =>
      obtain ⟨i, hi, hn⟩ := h
      rcases List.mem_cons.mp hi with rfl | hi2
      · obtain ⟨e, he⟩ := (readUsername_error_iff m i).mpr hn
        rw [hr] at he; cases he
      · obtain ⟨e, he⟩ := ih ⟨i, hi2, hn⟩
        exact ⟨e, by simp [typingUsernames, hr, he]⟩

theorem typingUsernames_defined (m : JsObject MemberAttributes) (ids : List String)
    (h : ∀ id ∈ ids, readMember m id ≠ .undefined) :
    ∃ names, typingUsernames m ids = .ok names := by
  induction ids with
  | nil => exact ⟨[], rfl⟩
  | cons id rest ih =>
    obtain ⟨names, hn⟩ := ih (fun i hi => h i (List.mem_cons_of_mem _ hi))
    cases hr : readUsername m id with
    | error e =>
      exact absurd ((readUsername_error_iff m id).mp ⟨e, hr⟩) (h id (List.mem_cons_self _ _))
    | ok name => exact ⟨name :: names, by simp [typingUsernames, hr, hn]⟩

theorem readMember_defined_iff (m : JsObject MemberAttributes) (id : String) :
    readMember m id ≠ .undefined ↔
      ((JsObject.get m id).isSome = true ∨ inheritsName m id = true) := by
  unfold readMember
  cases hg : JsObject.get m id with
  | some attrs => simp
  | none => cases hi : inheritsName m id <;> simp

theorem map_joinText_some (names : List String) : (names.map some).map joinText = names := by
  induction names with
  | nil => rfl
  | cons n rest ih => simp only [List.map_cons, ih]; rfl

theorem mem_typingUserIds (presences : Snapshot) (id : String) :
    id ∈ typingUserIds presences ↔
      HasTypingMeta presences id := by
  unfold typingUserIds HasTypingMeta
  rw [List.mem_filter, JsObject.mem_keys, ← JsObject.get_isSome_iff]
  cases hg : JsObject.get presences id with
  | none => simp
  | some p => simp


theorem updateTypingStatus_of_ok (presences : Snapshot) (s : State) (names : List String)
    (h : typingUsernames s.channelMembers (typingUserIds presences) = .ok (names.map some)) :
    (updateTypingStatus presences s).thrown = none ∧
    (updateTypingStatus presences s).state.typingBar =
      if typingUserIds presences = [] then "" else joinComma names ++ " is typing.." := by
  unfold updateTypingStatus
  cases hids : typingUserIds presences with
  | nil => simp
  | cons id rest =>
    rw [hids] at h
    simp only [h, List.length_cons, gt_iff_lt, Nat.zero_lt_succ, if_true, map_joinText_some]
    simp

theorem forall₂_nil_iff_left {α β : Type} {R : α → β → Prop} {l : List α} {r : List β}
    (h : List.Forall₂ R l r) : l = [] ↔ r = [] := by
  cases h <;> simp

/-! ## Typing indicator: claims C1, C2, C8 -/

/-- C1: when the directory has an entry for every participant id of the snapshot, the ids
kept by `updateTypingStatus` are exactly the participants with at least one meta whose
`typing` flag is set, whatever the number of metas, and the text written to the typing
bar is built from the display names of exactly those ids. -/
theorem updateTypingStatus_names_exactly_typing (presences : Snapshot) (s : State)
    (hdir : ∀ id ∈ JsObject.keys presences, (JsObject.get s.channelMembers id).isSome = true) :
    (∀ id, id ∈ typingUserIds presences ↔ HasTypingMeta presences id) ∧
    ∃ names, List.Forall₂ (DisplayName s.channelMembers) (typingUserIds presences) names ∧
      (updateTypingStatus presences s).thrown = none ∧
      (updateTypingStatus presences s).state.typingBar =
        if names = [] then "" else joinComma names ++ " is typing.." := by
  refine ⟨mem_typingUserIds presences, ?_⟩
  have hsub : ∀ id ∈ typingUserIds presences, (JsObject.get s.channelMembers id).isSome = true :=
    fun id hid => hdir id (List.mem_filter.mp hid).1
  obtain ⟨names, hok, hf⟩ := typingUsernames_ok s.channelMembers _ hsub
  obtain ⟨h1, h2⟩ := updateTypingStatus_of_ok presences s names hok
  refine ⟨names, hf, h1, ?_⟩
  rw [h2]
  by_cases hn : names = []
  · simp [hn, (forall₂_nil_iff_left hf).mpr hn]
  · have hi : ¬ typingUserIds presences = [] := fun h => hn ((forall₂_nil_iff_left hf).mp h)
    simp [hn, hi]

/-- Witness for C1: the sample snapshot against the directory of the sample state, which
has an entry for each of its three ids. -/
theorem updateTypingStatus_names_exactly_typing_witness :
    (∀ id ∈ JsObject.keys demoSnapshot, (JsObject.get demoState.channelMembers id).isSome = true) ∧
    typingUserIds demoSnapshot = ["u1", "u3"] ∧
    (updateTypingStatus demoSnapshot demoState).state.typingBar = "alice, carol is typing.." ∧
    (∀ id, id ∈ typingUserIds demoSnapshot ↔ HasTypingMeta demoSnapshot id) ∧
    ∃ names, List.Forall₂ (DisplayName demoState.channelMembers) (typingUserIds demoSnapshot) names ∧
      (updateTypingStatus demoSnapshot demoState).thrown = none ∧
      (updateTypingStatus demoSnapshot demoState).state.typingBar =
        if names = [] then "" else joinComma names ++ " is typing.." :=
  ⟨by decide, by decide, by decide,
    updateTypingStatus_names_exactly_typing demoSnapshot demoState (by decide)⟩

theorem typingUserIds_sublist (presences : Snapshot) :
    List.Sublist (typingUserIds presences) (JsObject.keys presences) := by
  unfold typingUserIds
  exact List.filter_sublist _

theorem JsObject.keys_of_no_index {α : Type} (o : JsObject α)
    (h : ∀ k ∈ o.map Prod.fst, JsObject.isArrayIndex k = false) :
    JsObject.keys o = o.map Prod.fst := by
  unfold JsObject.keys
  have h1 : (o.map Prod.fst).filter JsObject.isArrayIndex = [] := by
    rw [List.filter_eq_nil_iff]
    intro k hk
    simp [h k hk]
  have h2 : (o.map Prod.fst).filter (fun k => !JsObject.isArrayIndex k) = o.map Prod.fst := by
    rw [List.filter_eq_self]
    intro k hk
    simp [h k hk]
  simp only [h1, h2, List.insertionSort, List.nil_append]

/-- C2, as the spec states it, fails: with one typing participant the text written to the
typing bar is the name followed by ` is typing..` and not the bare list of names, and
array-index ids come first in ascending numeric order whatever their insertion order. -/
theorem typingBar_not_bare_name_list :
    (updateTypingStatus [("u1", ⟨[⟨"r1", true⟩]⟩)]
        { startState "ws" with channelMembers := [("u1", ⟨"alice"⟩)] }).state.typingBar
      = "alice is typing.." ∧
    (updateTypingStatus [("u1", ⟨[⟨"r1", true⟩]⟩)]
        { startState "ws" with channelMembers := [("u1", ⟨"alice"⟩)] }).state.typingBar
      ≠ joinComma ["alice"] ∧
    (updateTypingStatus [("10", ⟨[⟨"r1", true⟩]⟩), ("2", ⟨[⟨"r2", true⟩]⟩)]
        { startState "ws" with channelMembers := [("10", ⟨"alice"⟩), ("2", ⟨"bob"⟩)] }).state.typingBar
      = "bob, alice is typing.." := by
  decide

/-- C2, amended: when every typing participant has a directory entry, the text written to
the typing bar is empty when no participant is typing, and otherwise is the display names
of the typing participants joined by `, ` and followed by ` is typing..`; the names follow
the order of `Object.keys` on the snapshot, which is insertion order when no id is an
array index. -/
theorem updateTypingStatus_indicator_text (presences : Snapshot) (s : State)
    (hdir : ∀ id ∈ typingUserIds presences, (JsObject.get s.channelMembers id).isSome = true) :
    ((∀ id, ¬ HasTypingMeta presences id) →
      (updateTypingStatus presences s).state.typingBar = "") ∧
    ((∃ id, HasTypingMeta presences id) →
      ∃ names, List.Forall₂ (DisplayName s.channelMembers) (typingUserIds presences) names ∧
        (updateTypingStatus presences s).state.typingBar = joinComma names ++ " is typing..") ∧
    (∀ id, id ∈ typingUserIds presences ↔ HasTypingMeta presences id) ∧
    List.Sublist (typingUserIds presences) (JsObject.keys presences) ∧
    ((∀ k ∈ presences.map Prod.fst, JsObject.isArrayIndex k = false) →
      JsObject.keys presences = presences.map Prod.fst) := by
  obtain ⟨names, hok, hf⟩ := typingUsernames_ok s.channelMembers _ hdir
  obtain ⟨-, h2⟩ := updateTypingStatus_of_ok presences s names hok
  refine ⟨?_, ?_, mem_typingUserIds presences, typingUserIds_sublist presences,
    JsObject.keys_of_no_index presences⟩
  · intro hnone
    have hnil : typingUserIds presences = [] := by
      apply List.eq_nil_iff_forall_not_mem.mpr
      intro id hid
      exact hnone id ((mem_typingUserIds presences id).mp hid)
    rw [h2, if_pos hnil]
  · rintro ⟨id, hid⟩
    have hne : typingUserIds presences ≠ [] :=
      List.ne_nil_of_mem ((mem_typingUserIds presences id).mpr hid)
    exact ⟨names, hf, by rw [h2, if_neg hne]⟩

/-- Witness for amended C2: the sample snapshot, whose typing participants `u1` and `u3`
are in the directory of the sample state. -/
theorem updateTypingStatus_indicator_text_witness :
    (∀ id ∈ typingUserIds demoSnapshot, (JsObject.get demoState.channelMembers id).isSome = true) ∧
    (updateTypingStatus demoSnapshot demoState).state.typingBar = "alice, carol is typing.." ∧
    ((∃ id, HasTypingMeta demoSnapshot id) →
      ∃ names, List.Forall₂ (DisplayName demoState.channelMembers) (typingUserIds demoSnapshot) names ∧
        (updateTypingStatus demoSnapshot demoState).state.typingBar
          = joinComma names ++ " is typing..") :=
  ⟨by decide, by decide,
    (updateTypingStatus_indicator_text demoSnapshot demoState (by decide)).2.1⟩

/-- C8, as the spec states it, fails: a presence snapshot with a typing participant whose
id has no entry in `channelMembers` makes `updateTypingStatus` throw a `TypeError`. -/
theorem updateTypingStatus_throws_on_unknown_typing_id :
    (updateTypingStatus [("u1", ⟨[⟨"r1", true⟩]⟩)] (startState "ws")).thrown
      = some (.typeError "Cannot read property username of undefined") := by
  decide

/-- An id that names an inherited property of the directory does not make the function
throw: for the typing id `constructor` without an entry the read finds the built-in
function, its `username` is `undefined`, and the name is rendered empty. -/
theorem updateTypingStatus_inherited_typing_id :
    (updateTypingStatus [("constructor", ⟨[⟨"r1", true⟩]⟩)] demoState).thrown = none ∧
    (updateTypingStatus [("constructor", ⟨[⟨"r1", true⟩]⟩)] demoState).state.typingBar
      = " is typing.." := by
  decide

/-- C8, amended: `updateTypingStatus` completes without an error exactly when, for every
typing participant of the snapshot, the read `channelMembers[id]` is not `undefined`, that
is the id has an entry in `channelMembers` or names a property the directory object
inherits from its prototype chain; ids of participants that are not typing need neither,
and a typing participant whose id is neither makes the function throw. -/
theorem updateTypingStatus_completes_iff (presences : Snapshot) (s : State) :
    (updateTypingStatus presences s).thrown = none ↔
      ∀ id, HasTypingMeta presences id →
        ((JsObject.get s.channelMembers id).isSome = true ∨
          inheritsName s.channelMembers id = true) := by
  constructor
  · intro hthrown id hid
    by_contra hmiss
    have hmem := (mem_typingUserIds presences id).mpr hid
    have hundef : readMember s.channelMembers id = .undefined := by
      by_contra hdef
      exact hmiss ((readMember_defined_iff _ _).mp hdef)
    obtain ⟨e, he⟩ := typingUsernames_error s.channelMembers _ ⟨id, hmem, hundef⟩
    have hne : typingUserIds presences ≠ [] := List.ne_nil_of_mem hmem
    have hlen : (typingUserIds presences).length > 0 := List.length_pos.mpr hne
    simp [updateTypingStatus, hlen, he] at hthrown
  · intro hall
    obtain ⟨names, hok⟩ := typingUsernames_defined s.channelMembers (typingUserIds presences)
      (fun id hid => (readMember_defined_iff _ _).mpr
        (hall id ((mem_typingUserIds presences id).mp hid)))
    by_cases hlen : (typingUserIds presences).length > 0
    · simp only [updateTypingStatus, hlen, if_true, hok]
    · simp only [updateTypingStatus, hlen, if_false]

theorem splitChars_ne_nil (sep : Char) (cs : List Char) : splitChars sep cs ≠ [] := by
  cases cs with
  | nil => simp [splitChars]
  | cons c cs =>
    unfold splitChars
    split
    · simp
    · split <;> simp

theorem splitChars_word_then (sep : Char) (w rest : List Char) (hw : sep ∉ w) :
    splitChars sep (w ++ sep :: rest) = w :: splitChars sep rest := by
  induction w with
  | nil => simp [splitChars]
  | cons c w ih =>
    have hc : c ≠ sep := fun h => hw (by simp [h])
    have hw2 : sep ∉ w := fun h => hw (List.mem_cons_of_mem _ h)
    simp [splitChars, hc, ih hw2]

theorem splitChars_word (sep : Char) (w : List Char) (hw : sep ∉ w) :
    splitChars sep w = [w] := by
  induction w with
  | nil => simp [splitChars]
  | cons c w ih =>
    have hc : c ≠ sep := fun h => hw (by simp [h])
    have hw2 : sep ∉ w := fun h => hw (List.mem_cons_of_mem _ h)
    simp [splitChars, hc, ih hw2]

theorem splitChars_spaced (w : List Char) (ids : List String) (hw : ' ' ∉ w)
    (hids : ∀ id ∈ ids, ' ' ∉ id.data) :
    splitChars ' ' (w ++ (ids.map (fun id => ' ' :: id.data)).flatten) = w :: ids.map String.data := by
  induction ids generalizing w with
  | nil => simpa using splitChars_word ' ' w hw
  | cons id rest ih =>
    have h1 : ' ' ∉ id.data := hids id (List.mem_cons_self _ _)
    have h2 : ∀ i ∈ rest, ' ' ∉ i.data := fun i hi => hids i (List.mem_cons_of_mem _ hi)
    simp only [List.map_cons, List.flatten_cons, List.cons_append]
    rw [splitChars_word_then ' ' w _ hw, ih id.data h1 h2]

theorem splitSpace_new (ids : List String) (hids : ∀ id ∈ ids, ' ' ∉ id.data) :
    splitSpace (substring1 (newCommandLine ids)) = "new" :: ids := by
  have h := splitChars_spaced "new".data ids (by decide) hids
  show List.map String.mk
      (splitChars ' ' ("new".data ++ (ids.map (fun id => ' ' :: id.data)).flatten)) = "new" :: ids
  rw [h]
  have hid : (String.mk ∘ String.data) = id := rfl
  simp [hid]

/-- C4, as the spec states it, fails: submitting a plain line while no conversation is
active throws a `TypeError`. -/
theorem onSubmit_throws_without_active_channel :
    (onSubmit "hello" (startState "ws://localhost:4000/socket")).thrown
      = some (.typeError "Cannot read property push of null") := by
  decide

/-- C4, amended: while `activeChannel` is `null`, submitting a line that is not a command
pushes nothing on any topic, and the handler clears the input bar and then throws a
`TypeError`. -/
theorem onSubmit_without_active_channel (text : String) (s : State)
    (hnone : s.activeChannel = none) (hplain : startsWithSlash text = false) :
    (onSubmit text s).state.pushes = s.pushes ∧
    (onSubmit text s).state.inputBar = "" ∧
    (onSubmit text s).thrown = some (.typeError "Cannot read property push of null") := by
  simp [onSubmit, hplain, pushActive, hnone]

/-- Witness for amended C4: the line `hello` in the start state. -/
theorem onSubmit_without_active_channel_witness :
    (startState "ws://localhost:4000/socket").activeChannel = none ∧
    startsWithSlash "hello" = false ∧
    (onSubmit "hello" (startState "ws://localhost:4000/socket")).state.pushes
      = (startState "ws://localhost:4000/socket").pushes ∧
    (onSubmit "hello" (startState "ws://localhost:4000/socket")).state.inputBar = "" ∧
    (onSubmit "hello" (startState "ws://localhost:4000/socket")).thrown
      = some (.typeError "Cannot read property push of null") :=
  ⟨rfl, by decide,
    onSubmit_without_active_channel "hello" (startState "ws://localhost:4000/socket") rfl (by decide)⟩

/-- C6, as the spec states it, fails: with two spaces between the ids `a` and `b` the
request carries three participant references, one of them with the empty id, and with a
tab as the separator nothing is pushed. -/
theorem onCommand_new_not_whitespace_split :
    (onSubmit "/new a  b" demoState).state.pushes =
      [{ time := 0, topic := "message_threads:index", event := "message_threads:create",
         data := .messageThreads [participantRef "a", participantRef "", participantRef "b"] }] ∧
    (onSubmit "/new a  b" demoState).state.pushes ≠
      [{ time := 0, topic := "message_threads:index", event := "message_threads:create",
         data := .messageThreads [participantRef "a", participantRef "b"] }] ∧
    (onSubmit "/new\ta\tb" demoState).state.pushes = [] := by
  decide

/-- C6, amended: for a line made of the slash, the name `new` and `k ≥ 0` ids free of
spaces, each preceded by exactly one space, the submit handler hands the line without the
slash to `onCommand`, which pushes `message_threads:create` on the index topic with one
participant reference per id, in argument order, and nothing else. -/
theorem onCommand_new_single_spaces (ids : List String) (s : State)
    (hids : ∀ id ∈ ids, ' ' ∉ id.data) :
    onSubmit (newCommandLine ids) s = onCommand (substring1 (newCommandLine ids)) { s with inputBar := "" } ∧
    (onSubmit (newCommandLine ids) s).thrown = none ∧
    (onSubmit (newCommandLine ids) s).state.pushes = s.pushes ++
      [{ time := s.clock, topic := indexTopic, event := "message_threads:create",
         data := .messageThreads (ids.map participantRef) }] := by
  have hslash : startsWithSlash (newCommandLine ids) = true := by
    simp [startsWithSlash, newCommandLine]
  have hsplit := splitSpace_new ids hids
  have hq : ¬ ("new" = "quit") := by decide
  refine ⟨by simp [onSubmit, hslash], ?_, ?_⟩ <;>
    simp [onSubmit, hslash, onCommand, hsplit, hq, pushIndex, done, participantRef]

/-- Witness for amended C6: the line `/new u2 u3`. -/
theorem onCommand_new_single_spaces_witness :
    (∀ id ∈ ["u2", "u3"], ' ' ∉ id.data) ∧
    newCommandLine ["u2", "u3"] = "/new u2 u3" ∧
    (onSubmit "/new u2 u3" demoState).state.pushes =
      [{ time := 0, topic := "message_threads:index", event := "message_threads:create",
         data := .messageThreads [participantRef "u2", participantRef "u3"] }] :=
  ⟨by decide, by decide,
    (onCommand_new_single_spaces ["u2", "u3"] demoState (by decide)).2.2⟩

/-! ## Session: claims C5, C9, C10 -/

theorem updateTypingStatus_cases (presences : Snapshot) (s : State) :
    (∃ e, updateTypingStatus presences s = { state := s, thrown := some e }) ∨
    (∃ bar, updateTypingStatus presences s = { state := { s with typingBar := bar }, thrown := none }) := by
  by_cases hlen : (typingUserIds presences).length > 0
  · cases hu : typingUsernames s.channelMembers (typingUserIds presences) with
    | error e => exact Or.inl ⟨e, by simp only [updateTypingStatus, hlen, if_true, hu]⟩
    | ok names =>
      exact Or.inr ⟨joinComma (names.map joinText) ++ " is typing..", by
        simp only [updateTypingStatus, hlen, if_true, hu]⟩
  · exact Or.inr ⟨"", by simp only [updateTypingStatus, hlen, if_false]⟩

theorem updateTypingStatus_frame (presences : Snapshot) (s : State) :
    (updateTypingStatus presences s).state.activeChannel = s.activeChannel ∧
    (updateTypingStatus presences s).state.presences = s.presences ∧
    (updateTypingStatus presences s).state.pushes = s.pushes := by
  rcases updateTypingStatus_cases presences s with ⟨e, h⟩ | ⟨bar, h⟩ <;> rw [h] <;> exact ⟨rfl, rfl, rfl⟩

theorem pushActive_activeChannel (event : String) (data : Data) (s : State) :
    (pushActive event data s).state.activeChannel = s.activeChannel := by
  unfold pushActive
  split <;> simp [done]

theorem joinConversations_activeChannel (response : List Conversation) (s : State) :
    (joinConversations response s).activeChannel = s.activeChannel := by
  unfold joinConversations
  induction response generalizing s with
  | nil => rfl
  | cons c rest ih => simp only [List.foldl_cons]; rw [ih]; rfl

theorem onKeypress_activeChannel (s : State) :
    (onKeypress s).state.activeChannel = s.activeChannel := by
  unfold onKeypress Outcome.andThen
  by_cases ht : s.isTyping = true
  · simp [ht, done, setTypingTimeout, clearTimeout]
    cases s.typingTimer <;> rfl
  · simp only [ht]
    cases hc : s.activeChannel with
    | none => simp [pushActive, hc]
    | some topic =>
      simp [pushActive, hc, done, setTypingTimeout, clearTimeout]
      cases s.typingTimer <;> simp [hc]

theorem onSubmit_activeChannel (text : String) (s : State) :
    (onSubmit text s).state.activeChannel = s.activeChannel := by
  unfold onSubmit
  split
  · unfold onCommand
    split
    · rfl
    · split
      · rfl
      · split <;> rfl
  · exact pushActive_activeChannel _ _ _

theorem handle_activeChannel (lib : PresenceLib) (e : Event) (s : State)
    (he : e.isJoinOk = false) :
    (handle lib e s).state.activeChannel = s.activeChannel := by
  cases e with
  | keypress => exact onKeypress_activeChannel s
  | submit text => exact onSubmit_activeChannel text s
  | timerExpiry =>
    simp only [handle]
    split
    · rfl
    · exact pushActive_activeChannel _ _ _
  | joinReply conversation reply =>
    cases reply with
    | ok info => simp [Event.isJoinOk] at he
    | error => rfl
    | timeout => rfl
  | indexJoinReply reply =>
    cases reply with
    | ok response => exact joinConversations_activeChannel response s
    | error => rfl
    | timeout => rfl
  | createOk response => rfl
  | presenceState conversation state =>
    exact (updateTypingStatus_frame _ _).1
  | presenceDiff conversation diff =>
    exact (updateTypingStatus_frame _ _).1
  | messagesNew conversation msg =>
    simp only [handle, onMessagesNew]
    split <;> rfl

theorem settle_activeChannel (o : Outcome) : (settle o).activeChannel = o.state.activeChannel := by
  unfold settle
  split <;> rfl

theorem run_activeChannel (lib : PresenceLib) (es : List Event) (s : State)
    (hes : ∀ e ∈ es, e.isJoinOk = false) :
    (run lib es s).activeChannel = s.activeChannel := by
  unfold run
  induction es generalizing s with
  | nil => rfl
  | cons e rest ih =>
    simp only [List.foldl_cons]
    rw [ih _ (fun x hx => hes x (List.mem_cons_of_mem _ hx))]
    unfold step
    split
    · rfl
    · rw [settle_activeChannel, handle_activeChannel lib e s (hes e (List.mem_cons_self _ _))]

/-- C5: when the join of `c1` has succeeded and, after any events, the join of `c2`
succeeds, the active channel is the channel of `c2`; it stays so through any later events
that are not a successful join, and a line submitted then that does not start with the
slash is pushed verbatim as one `messages:create` with `type` `messages` on the topic of
`c2`, and nothing else is pushed. -/
theorem last_successful_join_wins (lib : PresenceLib) (s0 : State)
    (c1 c2 : Conversation) (info1 info2 : ChannelInfo) (between later : List Event)
    (text : String) (hlater : ∀ e ∈ later, e.isJoinOk = false)
    (hplain : startsWithSlash text = false) :
    (onJoinOk c2 info2 (run lib between (onJoinOk c1 info1 s0))).activeChannel
      = some (topicOf c2) ∧
    (run lib later (onJoinOk c2 info2 (run lib between (onJoinOk c1 info1 s0)))).activeChannel
      = some (topicOf c2) ∧
    (onSubmit text
        (run lib later (onJoinOk c2 info2 (run lib between (onJoinOk c1 info1 s0))))).thrown
      = none ∧
    (onSubmit text
        (run lib later (onJoinOk c2 info2 (run lib between (onJoinOk c1 info1 s0))))).state.pushes
      = (run lib later (onJoinOk c2 info2 (run lib between (onJoinOk c1 info1 s0)))).pushes ++
        [{ time := (run lib later (onJoinOk c2 info2 (run lib between (onJoinOk c1 info1 s0)))).clock,
           topic := topicOf c2, event := "messages:create", data := .messages text }] ∧
    (Data.messages text).type = "messages" := by
  have h1 : (onJoinOk c2 info2 (run lib between (onJoinOk c1 info1 s0))).activeChannel
      = some (topicOf c2) := rfl
  have h2 := run_activeChannel lib later
    (onJoinOk c2 info2 (run lib between (onJoinOk c1 info1 s0))) hlater
  rw [h1] at h2
  refine ⟨h1, h2, ?_, ?_, rfl⟩ <;>
    simp [onSubmit, hplain, pushActive, h2, done]

/-- Witness for C5: `c1` joined, then `c2` joined, then a keypress, a presence event on
`c1` and an expiry of the typing timer, then the line `hi all`. -/
theorem last_successful_join_wins_witness :
    (∀ e ∈ [Event.keypress, Event.presenceState demoConversation demoSnapshot, Event.timerExpiry],
      e.isJoinOk = false) ∧
    startsWithSlash "hi all" = false ∧
    (onSubmit "hi all"
        (run specPresence
          [Event.keypress, Event.presenceState demoConversation demoSnapshot, Event.timerExpiry]
          (onJoinOk otherConversation demoInfo
            (run specPresence [] (onJoinOk demoConversation demoInfo
              (startState "ws://localhost:4000/socket")))))).state.pushes
      = [{ time := 0, topic := "message_threads:c2", event := "messages:typing", data := .typing true },
         { time := 2000, topic := "message_threads:c2", event := "messages:typing", data := .typing false },
         { time := 2000, topic := "message_threads:c2", event := "messages:create",
           data := .messages "hi all" }] :=
  ⟨by decide, by decide, by
    rw [(last_successful_join_wins specPresence (startState "ws://localhost:4000/socket")
      demoConversation otherConversation demoInfo demoInfo []
      [Event.keypress, Event.presenceState demoConversation demoSnapshot, Event.timerExpiry]
      "hi all" (by decide) (by decide)).2.2.2.1]
    decide⟩

/-- C9, as the spec states it, fails: after a full-state event on `c2` that lists only
`u2`, typing, a diff event on `c1` in which the idle `u1` joins changes the snapshot
that the handlers of `c2` read, and the typing bar recomputed for the event on `c1`
names `bob`, who appeared on `c2` only. -/
theorem presences_shared_between_conversations :
    (onPresenceState specPresence otherConversation
        [("u2", { metas := [{ phx_ref := "r1", typing := true }] })] demoState).state.presences
      = [("u2", { metas := [{ phx_ref := "r1", typing := true }] })] ∧
    (onPresenceDiff specPresence demoConversation
        { joins := [("u1", { metas := [{ phx_ref := "r2", typing := false }] })], leaves := [] }
        (onPresenceState specPresence otherConversation
          [("u2", { metas := [{ phx_ref := "r1", typing := true }] })] demoState).state).state.presences
      = [("u2", { metas := [{ phx_ref := "r1", typing := true }] }),
         ("u1", { metas := [{ phx_ref := "r2", typing := false }] })] ∧
    (onPresenceDiff specPresence demoConversation
        { joins := [("u1", { metas := [{ phx_ref := "r2", typing := false }] })], leaves := [] }
        (onPresenceState specPresence otherConversation
          [("u2", { metas := [{ phx_ref := "r1", typing := true }] })] demoState).state).state.typingBar
      = "bob is typing.." := by
  decide

/-- C9, amended: the script keeps one presence snapshot for all conversations.  The
handlers of `presence_state` and `presence_diff` do the same whatever the conversation
whose topic delivered the event: the shared snapshot becomes the merge the library
computes from it and the event, events of different conversations fold into it in
arrival order, and the typing bar is recomputed from the shared snapshot. -/
theorem presence_snapshot_is_global (lib : PresenceLib) (a b : Conversation)
    (state : Snapshot) (diff : PresenceDiff) (s : State) :
    onPresenceState lib a state s = onPresenceState lib b state s ∧
    onPresenceDiff lib a diff s = onPresenceDiff lib b diff s ∧
    (onPresenceState lib a state s).state.presences = lib.syncState s.presences state ∧
    (onPresenceDiff lib a diff s).state.presences = lib.syncDiff s.presences diff ∧
    (onPresenceDiff lib b diff (onPresenceState lib a state s).state).state.presences
      = lib.syncDiff (lib.syncState s.presences state) diff ∧
    onPresenceState lib a state s
      = updateTypingStatus (lib.syncState s.presences state)
          { s with presences := lib.syncState s.presences state } ∧
    onPresenceDiff lib a diff s
      = updateTypingStatus (lib.syncDiff s.presences diff)
          { s with presences := lib.syncDiff s.presences diff } := by
  refine ⟨rfl, rfl, ?_, ?_, ?_, rfl, rfl⟩
  · exact (updateTypingStatus_frame _ _).2.1
  · exact (updateTypingStatus_frame _ _).2.1
  · unfold onPresenceDiff
    rw [(updateTypingStatus_frame _ _).2.1]
    simp only
    unfold onPresenceState
    rw [(updateTypingStatus_frame _ _).2.1]

/-- C10 at the failing input: a `timeout` reply to the join of a conversation runs no
callback, so the state, transcript included, is unchanged; an `error` reply appends the
banner `Failed to join conversation` and leaves the active channel, the directory and the
requested joins as they were; a `timeout` reply to the join of the index channel does
append a banner. -/
theorem conversation_join_timeout_unreported (conversation : Conversation) (s : State) :
    onJoinReply conversation .timeout s = s ∧
    (onJoinReply conversation .timeout s).messageView = s.messageView ∧
    (onJoinReply conversation .error s).messageView
      = s.messageView ++ [{ style := .bgRed, text := "Failed to join conversation" }] ∧
    (onJoinReply conversation .error s).activeChannel = s.activeChannel ∧
    (onJoinReply conversation .error s).channelMembers = s.channelMembers ∧
    (onJoinReply conversation .error s).joins = s.joins ∧
    (onIndexJoinReply .timeout s).messageView
      = s.messageView ++ [{ style := .bgRed, text := "Connection timeout" }] :=
  ⟨rfl, rfl, rfl, rfl, rfl, rfl, rfl⟩

/-! ## Typing debouncer: claims C3, C7 -/

theorem typingOutstanding_nil : ¬ TypingOutstanding [] := by
  rintro ⟨pre, p, post, h, -, -⟩
  simp at h

theorem typingOutstanding_concat (log : List Push) (q : Push) :
    TypingOutstanding (log ++ [q]) ↔
      isStart q = true ∨ (TypingOutstanding log ∧ isStop q = false) := by
  constructor
  · rintro ⟨pre, p, post, h, hs, hp⟩
    rcases List.eq_nil_or_concat post with rfl | ⟨post', r, rfl⟩
    · have h2 : log ++ [q] = pre ++ [p] := h
      obtain ⟨-, hq⟩ := List.append_inj' h2 rfl
      simp only [List.cons.injEq, and_true] at hq
      exact Or.inl (hq ▸ hs)
    · have h2 : log ++ [q] = (pre ++ p :: post') ++ [r] := by simpa using h
      obtain ⟨hl, hq⟩ := List.append_inj' h2 rfl
      simp only [List.cons.injEq, and_true] at hq
      refine Or.inr ⟨⟨pre, p, post', hl, hs, fun x hx => hp x (by simp [hx])⟩, ?_⟩
      rw [hq]
      exact hp r (by simp)
  · rintro (hq | ⟨⟨pre, p, post, h, hs, hp⟩, hq⟩)
    · exact ⟨log, q, [], rfl, hq, by simp⟩
    · refine ⟨pre, p, post ++ [q], by simp [h], hs, ?_⟩
      intro x hx
      rcases List.mem_append.mp hx with hx | hx
      · exact hp x hx
      · simp only [List.mem_singleton] at hx
        rw [hx]; exact hq

theorem onKeypress_idle (s : State) (topic : String)
    (hidle : s.isTyping = false) (hactive : s.activeChannel = some topic) :
    onKeypress s = done (setTypingTimeout 2000 (clearTimeout s.typingTimer
      { s with
        isTyping := true
        pushes := s.pushes ++
          [{ time := s.clock, topic := topic, event := "messages:typing", data := .typing true }] })) := by
  simp [onKeypress, hidle, pushActive, hactive, Outcome.andThen, done]

theorem onKeypress_typing (s : State) (htyping : s.isTyping = true) :
    onKeypress s = done (setTypingTimeout 2000 (clearTimeout s.typingTimer s)) := by
  simp [onKeypress, htyping, Outcome.andThen, done]

theorem fireTimer_active (t : Timer) (s : State) (topic : String)
    (hactive : s.activeChannel = some topic) :
    fireTimer t s = done
      { s with
        timers := s.timers.filter (fun u => u.id != t.id)
        clock := max s.clock t.due
        isTyping := false
        pushes := s.pushes ++
          [{ time := max s.clock t.due, topic := topic, event := "messages:typing",
             data := .typing false }] } := by
  simp [fireTimer, typingTimeout, pushActive, hactive, done]

theorem settle_done (s : State) : settle (done s) = s := rfl

theorem clearTimeout_timers_of_inv (s : State)
    (h : s.timers = [] ∨ ∃ t, s.timers = [t] ∧ s.typingTimer = some t.id) :
    (clearTimeout s.typingTimer s).timers = [] := by
  rcases h with h | ⟨t, ht, hid⟩
  · cases hh : s.typingTimer <;> simp [clearTimeout, h]
  · simp [clearTimeout, hid, ht]

theorem clearTimeout_frame (h : Option Nat) (s : State) :
    (clearTimeout h s).isTyping = s.isTyping ∧
    (clearTimeout h s).activeChannel = s.activeChannel ∧
    (clearTimeout h s).pushes = s.pushes ∧
    (clearTimeout h s).exited = s.exited ∧
    (clearTimeout h s).clock = s.clock ∧
    (clearTimeout h s).nextTimerId = s.nextTimerId := by
  cases h <;> exact ⟨rfl, rfl, rfl, rfl, rfl, rfl⟩

theorem isStart_typing_true (time : Nat) (topic : String) :
    isStart { time := time, topic := topic, event := "messages:typing", data := .typing true } = true := by
  simp [isStart]

theorem isStop_typing_false (time : Nat) (topic : String) :
    isStop { time := time, topic := topic, event := "messages:typing", data := .typing false } = true := by
  simp [isStop]

theorem isStart_typing_false (time : Nat) (topic : String) :
    isStart { time := time, topic := topic, event := "messages:typing", data := .typing false } = false := by
  simp [isStart]

theorem keypress_inv (s : State) (h : DebouncerInv s) : DebouncerInv (settle (onKeypress s)) := by
  obtain ⟨hact, htim, hiff⟩ := h
  obtain ⟨topic, htopic⟩ := Option.isSome_iff_exists.mp hact
  by_cases ht : s.isTyping = true
  · rw [onKeypress_typing s ht, settle_done]
    refine ⟨?_, ?_, ?_⟩
    · simp [setTypingTimeout, (clearTimeout_frame _ _).2.1, hact]
    · right
      refine ⟨⟨s.nextTimerId, s.clock + 2000⟩, ?_, ?_⟩
      · simp [setTypingTimeout, clearTimeout_timers_of_inv s htim, (clearTimeout_frame _ _).2.2.2.2]
      · simp [setTypingTimeout, (clearTimeout_frame _ _).2.2.2.2]
    · simp [setTypingTimeout, (clearTimeout_frame _ _).1, (clearTimeout_frame _ _).2.2.1, hiff]
  · have hf : s.isTyping = false := by simpa using ht
    rw [onKeypress_idle s topic hf htopic, settle_done]
    refine ⟨?_, ?_, ?_⟩
    · simp [setTypingTimeout, (clearTimeout_frame _ _).2.1, htopic]
    · right
      refine ⟨⟨s.nextTimerId, s.clock + 2000⟩, ?_, ?_⟩
      · have hc := clearTimeout_timers_of_inv
          { s with
            isTyping := true
            pushes := s.pushes ++
              [{ time := s.clock, topic := topic, event := "messages:typing", data := .typing true }] }
          htim
        simp only at hc
        simp [setTypingTimeout, hc, (clearTimeout_frame _ _).2.2.2.2]
      · simp [setTypingTimeout, (clearTimeout_frame _ _).2.2.2.2]
    · simp only [setTypingTimeout, (clearTimeout_frame _ _).1, (clearTimeout_frame _ _).2.2.1,
        typingOutstanding_concat, isStart_typing_true, true_or]

theorem timerExpiry_inv (lib : PresenceLib) (s : State) (h : DebouncerInv s) :
    DebouncerInv (settle (handle lib .timerExpiry s)) := by
  obtain ⟨hact, htim, hiff⟩ := h
  obtain ⟨topic, htopic⟩ := Option.isSome_iff_exists.mp hact
  rcases htim with hnil | ⟨t, ht, hid⟩
  · simp only [handle, hnil, timerQueue, List.insertionSort, settle_done]
    exact ⟨hact, Or.inl hnil, hiff⟩
  · simp only [handle, ht, timerQueue, List.insertionSort, List.orderedInsert]
    rw [fireTimer_active t s topic htopic, settle_done]
    refine ⟨by simp [htopic], Or.inl (by simp [ht]), ?_⟩
    simp [typingOutstanding_concat, isStart_typing_false, isStop_typing_false]

theorem submit_inv (text : String) (s : State) (h : DebouncerInv s) :
    DebouncerInv (settle (onSubmit text s)) := by
  obtain ⟨hact, htim, hiff⟩ := h
  obtain ⟨topic, htopic⟩ := Option.isSome_iff_exists.mp hact
  by_cases hslash : startsWithSlash text = true
  · simp only [onSubmit, hslash, if_true, onCommand]
    split
    · exact ⟨hact, htim, hiff⟩
    · split
      · exact ⟨hact, htim, hiff⟩
      · split
        · refine ⟨hact, htim, ?_⟩
          simp [pushIndex, done, settle, typingOutstanding_concat, isStart, isStop, hiff]
        · exact ⟨hact, htim, hiff⟩
  · have hf : startsWithSlash text = false := by simpa using hslash
    have heq : onSubmit text s = done
        { s with
          inputBar := ""
          pushes := s.pushes ++
            [{ time := s.clock, topic := topic, event := "messages:create", data := .messages text }] } := by
      simp [onSubmit, hf, pushActive, htopic]
    rw [heq, settle_done]
    refine ⟨hact, htim, ?_⟩
    simp [typingOutstanding_concat, isStart, isStop, hiff]

theorem step_inv (lib : PresenceLib) (s : State) (e : Event) (he : e.isInput = true)
    (h : DebouncerInv s) : DebouncerInv (step lib s e) := by
  unfold step
  split
  · exact h
  · cases e with
    | keypress => exact keypress_inv s h
    | submit text => exact submit_inv text s h
    | timerExpiry => exact timerExpiry_inv lib s h
    | joinReply c r => simp [Event.isInput] at he
    | indexJoinReply r => simp [Event.isInput] at he
    | createOk r => simp [Event.isInput] at he
    | presenceState c st => simp [Event.isInput] at he
    | presenceDiff c d => simp [Event.isInput] at he
    | messagesNew c m => simp [Event.isInput] at he

theorem run_inv (lib : PresenceLib) (es : List Event) (s : State)
    (hes : ∀ e ∈ es, e.isInput = true) (h : DebouncerInv s) : DebouncerInv (run lib es s) := by
  unfold run
  induction es generalizing s with
  | nil => exact h
  | cons e rest ih =>
    simp only [List.foldl_cons]
    exact ih _ (fun x hx => hes x (List.mem_cons_of_mem _ hx))
      (step_inv lib s e (hes e (List.mem_cons_self _ _)) h)

/-- C7, as the spec states it, fails: in the start state no channel is active, so the
first keypress sets `isTyping` and then throws before any signal is pushed; `isTyping`
is true although no typing-started signal has been sent. -/
theorem isTyping_without_start_signal :
    (onKeypress (startState "ws://localhost:4000/socket")).state.isTyping = true ∧
    (onKeypress (startState "ws://localhost:4000/socket")).state.pushes = [] ∧
    (run specPresence [Event.keypress] (startState "ws://localhost:4000/socket")).isTyping = true ∧
    ¬ TypingOutstanding
        (run specPresence [Event.keypress] (startState "ws://localhost:4000/socket")).pushes := by
  refine ⟨by decide, by decide, by decide, ?_⟩
  have h : (run specPresence [Event.keypress] (startState "ws://localhost:4000/socket")).pushes = [] := by
    decide
  rw [h]
  exact typingOutstanding_nil

/-- C7, amended: from a state with an active channel, `isTyping` false, no pending timer
and no outstanding typing-started signal, every state reached by keypresses, expiries of
the inactivity timer and submits has at most one pending timer, and `isTyping` is true
exactly when a typing-started signal has been pushed with no typing-stopped signal
after it. -/
theorem debouncer_invariant (lib : PresenceLib) (s0 : State) (topic : String) (es : List Event)
    (hactive : s0.activeChannel = some topic) (hidle : s0.isTyping = false)
    (htimers : s0.timers = []) (hlog : ¬ TypingOutstanding s0.pushes)
    (hes : ∀ e ∈ es, e.isInput = true) :
    (run lib es s0).timers.length ≤ 1 ∧
    ((run lib es s0).isTyping = true ↔ TypingOutstanding (run lib es s0).pushes) := by
  have h0 : DebouncerInv s0 := ⟨by simp [hactive], Or.inl htimers, by simp [hidle, hlog]⟩
  obtain ⟨-, htim, hiff⟩ := run_inv lib es s0 hes h0
  refine ⟨?_, hiff⟩
  rcases htim with h | ⟨t, ht, -⟩
  · simp [h]
  · simp [ht]

/-- Witness for amended C7: after a join, two keypresses, a submitted line, the expiry of
the timer and one more keypress. -/
theorem debouncer_invariant_witness :
    demoState.activeChannel = some "message_threads:c1" ∧ demoState.isTyping = false ∧
    demoState.timers = [] ∧
    (∀ e ∈ [Event.keypress, Event.keypress, Event.submit "hi", Event.timerExpiry, Event.keypress],
      e.isInput = true) ∧
    (run specPresence
        [Event.keypress, Event.keypress, Event.submit "hi", Event.timerExpiry, Event.keypress]
        demoState).timers.length ≤ 1 ∧
    ((run specPresence
        [Event.keypress, Event.keypress, Event.submit "hi", Event.timerExpiry, Event.keypress]
        demoState).isTyping = true ↔
      TypingOutstanding (run specPresence
        [Event.keypress, Event.keypress, Event.submit "hi", Event.timerExpiry, Event.keypress]
        demoState).pushes) :=
  ⟨by decide, by decide, by decide, by decide,
    debouncer_invariant specPresence demoState "message_threads:c1"
      [Event.keypress, Event.keypress, Event.submit "hi", Event.timerExpiry, Event.keypress]
      (by decide) (by decide) (by decide) typingOutstanding_nil (by decide)⟩

theorem advanceTo_none_due (target : Nat) (s : State)
    (h : ∀ t ∈ s.timers, target < t.due) :
    advanceTo target s = { s with clock := max s.clock target } := by
  have hf : s.timers.filter (fun t => decide (t.due ≤ target)) = [] := by
    rw [List.filter_eq_nil_iff]
    intro t ht
    have := h t ht
    simp only [decide_eq_true_eq]
    omega
  simp [advanceTo, hf, timerQueue]

theorem keypress_step_idle (lib : PresenceLib) (s : State) (topic : String)
    (hidle : s.isTyping = false) (htimers : s.timers = [])
    (hactive : s.activeChannel = some topic) (halive : s.exited = none) :
    ArmedAt (step lib s .keypress) topic s.clock ∧
    (step lib s .keypress).pushes = s.pushes ++
      [{ time := s.clock, topic := topic, event := "messages:typing", data := .typing true }] := by
  have hstep : step lib s .keypress = setTypingTimeout 2000 (clearTimeout s.typingTimer
      { s with
        isTyping := true
        pushes := s.pushes ++
          [{ time := s.clock, topic := topic, event := "messages:typing", data := .typing true }] }) := by
    simp only [step, halive, handle, onKeypress_idle s topic hidle hactive, settle_done]
    rfl
  have hc := clearTimeout_timers_of_inv
    { s with
      isTyping := true
      pushes := s.pushes ++
        [{ time := s.clock, topic := topic, event := "messages:typing", data := .typing true }] }
    (Or.inl htimers)
  simp only at hc
  rw [hstep]
  refine ⟨⟨?_, ⟨s.nextTimerId, ?_, ?_⟩, ?_, ?_, ?_⟩, ?_⟩
  · simp [setTypingTimeout, (clearTimeout_frame _ _).1]
  · simp [setTypingTimeout, hc, (clearTimeout_frame _ _).2.2.2.2]
  · simp [setTypingTimeout, (clearTimeout_frame _ _).2.2.2.2]
  · simp [setTypingTimeout, (clearTimeout_frame _ _).2.1, hactive]
  · simp [setTypingTimeout, (clearTimeout_frame _ _).2.2.2.1, halive]
  · simp [setTypingTimeout, (clearTimeout_frame _ _).2.2.2.2.1]
  · simp [setTypingTimeout, (clearTimeout_frame _ _).2.2.1]

theorem keypress_step_typing (lib : PresenceLib) (s : State) (topic : String)
    (htyping : s.isTyping = true)
    (htimers : s.timers = [] ∨ ∃ t, s.timers = [t] ∧ s.typingTimer = some t.id)
    (hactive : s.activeChannel = some topic) (halive : s.exited = none) :
    ArmedAt (step lib s .keypress) topic s.clock ∧
    (step lib s .keypress).pushes = s.pushes := by
  have hstep : step lib s .keypress = setTypingTimeout 2000 (clearTimeout s.typingTimer s) := by
    simp only [step, halive, handle, onKeypress_typing s htyping, settle_done]
    rfl
  have hc := clearTimeout_timers_of_inv s htimers
  rw [hstep]
  refine ⟨⟨?_, ⟨s.nextTimerId, ?_, ?_⟩, ?_, ?_, ?_⟩, ?_⟩
  · simp [setTypingTimeout, (clearTimeout_frame _ _).1, htyping]
  · simp [setTypingTimeout, hc, (clearTimeout_frame _ _).2.2.2.2]
  · simp [setTypingTimeout, (clearTimeout_frame _ _).2.2.2.2]
  · simp [setTypingTimeout, (clearTimeout_frame _ _).2.1, hactive]
  · simp [setTypingTimeout, (clearTimeout_frame _ _).2.2.2.1, halive]
  · simp [setTypingTimeout, (clearTimeout_frame _ _).2.2.2.2.1]
  · simp [setTypingTimeout, (clearTimeout_frame _ _).2.2.1]

theorem keypressAt_idle (lib : PresenceLib) (s : State) (topic : String) (t : Nat)
    (hidle : s.isTyping = false) (htimers : s.timers = [])
    (hactive : s.activeChannel = some topic) (halive : s.exited = none) (hclock : s.clock ≤ t) :
    ArmedAt (keypressAt lib s t) topic t ∧
    (keypressAt lib s t).pushes = s.pushes ++
      [{ time := t, topic := topic, event := "messages:typing", data := .typing true }] := by
  have hadv : advanceTo t s = { s with clock := max s.clock t } :=
    advanceTo_none_due t s (by simp [htimers])
  have hmax : max s.clock t = t := by omega
  rw [hmax] at hadv
  have h := keypress_step_idle lib { s with clock := t } topic hidle htimers hactive halive
  unfold keypressAt
  rw [hadv]
  exact h

theorem keypressAt_armed (lib : PresenceLib) (s : State) (topic : String) (t0 t : Nat)
    (h : ArmedAt s topic t0) (h1 : t0 ≤ t) (h2 : t < t0 + 2000) :
    ArmedAt (keypressAt lib s t) topic t ∧ (keypressAt lib s t).pushes = s.pushes := by
  obtain ⟨htyping, ⟨id, htim, hhandle⟩, hactive, halive, hclock⟩ := h
  have hadv : advanceTo t s = { s with clock := max s.clock t } :=
    advanceTo_none_due t s (by simp [htim]; omega)
  have hmax : max s.clock t = t := by omega
  rw [hmax] at hadv
  have h := keypress_step_typing lib { s with clock := t } topic htyping
    (Or.inr ⟨⟨id, t0 + 2000⟩, htim, hhandle⟩) hactive halive
  unfold keypressAt
  rw [hadv]
  exact h

theorem keypressesAt_armed (lib : PresenceLib) (rest : List Nat) (s : State) (topic : String)
    (t0 : Nat) (h : ArmedAt s topic t0)
    (hrapid : List.Chain (fun a b => a ≤ b ∧ b < a + 2000) t0 rest) :
    ArmedAt (keypressesAt lib rest s) topic ((t0 :: rest).getLast (List.cons_ne_nil _ _)) ∧
    (keypressesAt lib rest s).pushes = s.pushes := by
  induction rest generalizing s t0 with
  | nil => exact ⟨h, rfl⟩
  | cons t rest ih =>
    obtain ⟨⟨h1, h2⟩, hchain⟩ := List.chain_cons.mp hrapid
    obtain ⟨harmed, hpush⟩ := keypressAt_armed lib s topic t0 t h h1 h2
    obtain ⟨hfinal, hpush2⟩ := ih (keypressAt lib s t) t harmed hchain
    refine ⟨?_, ?_⟩
    · simpa [keypressesAt, List.getLast_cons] using hfinal
    · simp only [keypressesAt, List.foldl_cons] at hpush2 ⊢
      rw [hpush2, hpush]

theorem advanceTo_armed (s : State) (topic : String) (t target : Nat)
    (h : ArmedAt s topic t) (hT : t + 2000 ≤ target) :
    (advanceTo target s).pushes = s.pushes ++
      [{ time := t + 2000, topic := topic, event := "messages:typing", data := .typing false }] ∧
    (advanceTo target s).isTyping = false ∧ (advanceTo target s).timers = [] := by
  obtain ⟨htyping, ⟨id, htim, hhandle⟩, hactive, halive, hclock⟩ := h
  have hf : s.timers.filter (fun u => decide (u.due ≤ target)) = [{ id := id, due := t + 2000 }] := by
    simp [htim, hT]
  have hmax : max s.clock (t + 2000) = t + 2000 := by omega
  have hfire := fireTimer_active { id := id, due := t + 2000 } s topic hactive
  simp only [advanceTo, hf, timerQueue, List.insertionSort, List.orderedInsert, List.foldl_cons,
    List.foldl_nil, halive, hfire, settle_done]
  simp [htim, hmax]

/-- C3: from the idle state with an active channel, keypresses at times `t1 :: rest`, each
less than 2000 ms after the one before, push one `messages:typing` with value `true` at
`t1` and nothing more while they last; once the clock has passed the last keypress by
2000 ms the only further push is one `messages:typing` with value `false`, stamped 2000 ms
after the last keypress, whatever the number of keypresses. -/
theorem debounce_one_start_one_stop (lib : PresenceLib) (s0 : State) (topic : String)
    (t1 : Nat) (rest : List Nat) (target : Nat)
    (hidle : s0.isTyping = false) (htimers : s0.timers = [])
    (hactive : s0.activeChannel = some topic) (halive : s0.exited = none)
    (hclock : s0.clock ≤ t1)
    (hrapid : List.Chain (fun a b => a ≤ b ∧ b < a + 2000) t1 rest)
    (htarget : (t1 :: rest).getLast (List.cons_ne_nil _ _) + 2000 ≤ target) :
    (keypressesAt lib (t1 :: rest) s0).pushes = s0.pushes ++
      [{ time := t1, topic := topic, event := "messages:typing", data := .typing true }] ∧
    (advanceTo target (keypressesAt lib (t1 :: rest) s0)).pushes = s0.pushes ++
      [{ time := t1, topic := topic, event := "messages:typing", data := .typing true },
       { time := (t1 :: rest).getLast (List.cons_ne_nil _ _) + 2000, topic := topic,
         event := "messages:typing", data := .typing false }] ∧
    (advanceTo target (keypressesAt lib (t1 :: rest) s0)).isTyping = false ∧
    (advanceTo target (keypressesAt lib (t1 :: rest) s0)).timers = [] := by
  obtain ⟨harmed, hpush⟩ := keypressAt_idle lib s0 topic t1 hidle htimers hactive halive hclock
  obtain ⟨hlast, hpush2⟩ := keypressesAt_armed lib rest (keypressAt lib s0 t1) topic t1 harmed hrapid
  have hfold : keypressesAt lib (t1 :: rest) s0 = keypressesAt lib rest (keypressAt lib s0 t1) := rfl
  obtain ⟨hstop, htyping, hnone⟩ := advanceTo_armed _ topic _ target hlast htarget
  rw [hfold]
  refine ⟨by rw [hpush2, hpush], ?_, htyping, hnone⟩
  rw [hstop, hpush2, hpush]
  simp

/-- Witness for C3: keypresses at 0 ms and 1500 ms after a join, then silence until
3500 ms. -/
theorem debounce_one_start_one_stop_witness :
    demoState.isTyping = false ∧ demoState.timers = [] ∧
    demoState.activeChannel = some "message_threads:c1" ∧ demoState.exited = none ∧
    demoState.clock ≤ 0 ∧
    List.Chain (fun a b => a ≤ b ∧ b < a + 2000) 0 [1500] ∧
    (advanceTo 3500 (keypressesAt specPresence [0, 1500] demoState)).pushes =
      [{ time := 0, topic := "message_threads:c1", event := "messages:typing", data := .typing true },
       { time := 3500, topic := "message_threads:c1", event := "messages:typing",
         data := .typing false }] :=
  ⟨by decide, by decide, by decide, by decide, by decide,
    List.Chain.cons ⟨by decide, by decide⟩ List.Chain.nil,
    (debounce_one_start_one_stop specPresence demoState "message_threads:c1" 0 [1500] 3500
      (by decide) (by decide) (by decide) (by decide) (by decide)
      (List.Chain.cons ⟨by decide, by decide⟩ List.Chain.nil) (by decide)).2.1⟩

end PhoenixChat
